import Mathlib

/-!
Verification of the location-resolution core of `src/main.py` (tom-location).

The core is four functions: `email_to_safe_id`, `resolve_user_ref_by_email`,
`pick_device_ref` and `fetch_latest_location`.  They read a Firestore document
store; we embed the store as explicit data, the queries as functions on it, and
Python exception flow as `Except`.  Python numeric coercions (`float(...)`,
`int(...)`) are modelled over an explicit value type whose doubles may be
non-finite; finite values are exact rationals (no claim depends on IEEE-754
rounding, only on coercion success/failure and pass-through of values).
-/

deriving instance DecidableEq for Except

namespace TomLocation

/-- A Python float value: finite (exact rational), infinities, or NaN. -/
inductive PFloat where
  | finite (q : ℚ)
  | inf
  | ninf
  | nan
deriving DecidableEq

/-- A Firestore field value as seen by the Python client: integer, double
(possibly non-finite), string, boolean, or null. -/
inductive Value where
  | intV (n : ℤ)
  | dbl (x : PFloat)
  | str (s : String)
  | boolV (b : Bool)
  | null
deriving DecidableEq

/-- Numeric value of a digit string (list of decimal digit characters). -/
def digitsToNat (cs : List Char) : ℕ :=
  cs.foldl (fun a c => a * 10 + (c.toNat - '0'.toNat)) 0

/-- Parse a nonempty all-digit character list. -/
def parseDigits (cs : List Char) : Option ℕ :=
  if !cs.isEmpty && cs.all Char.isDigit then some (digitsToNat cs) else none

/-- Parse an optionally signed nonempty digit run (no interior whitespace). -/
def parseSignedDigits (cs : List Char) : Option ℤ :=
  match cs with
  | '+' :: ds => (parseDigits ds).map Int.ofNat
  | '-' :: ds => (parseDigits ds).map (fun n => -(Int.ofNat n))
  | ds => (parseDigits ds).map Int.ofNat

/-- 10 ^ n as an exact rational, by plain recursion (kernel-friendly). -/
def qpow10 : ℕ → ℚ
  | 0 => 1
  | n + 1 => 10 * qpow10 n

/-- Whitespace stripped by Python `str.strip()` (the ASCII part suffices). -/
def isPySpace (c : Char) : Bool :=
  c = ' ' || c = '\t' || c = '\n' || c = '\r' || c = '\x0b' || c = '\x0c'

/-- Strip leading and trailing whitespace from a character list. -/
def trimChars (cs : List Char) : List Char :=
  ((cs.dropWhile isPySpace).reverse.dropWhile isPySpace).reverse

/-- ASCII lower-casing of one character. -/
def lowerChar (c : Char) : Char :=
  if 'A' ≤ c && c ≤ 'Z' then Char.ofNat (c.toNat + 32) else c

/-- Split a character list on a separator character (like `str.split(sep)`
with a one-character separator: n separators yield n+1 pieces). -/
def splitOnChar (c : Char) : List Char → List (List Char)
  | [] => [[]]
  | x :: xs =>
    if x = c then [] :: splitOnChar c xs
    else
      match splitOnChar c xs with
      | [] => [[x]]
      | h :: t => (x :: h) :: t

/-- Python `int(str)`: strip surrounding whitespace, optional sign, digits.
(Digit-group underscores are not modelled; no claim involves them.) -/
def parseIntStr (s : String) : Option ℤ :=
  parseSignedDigits (trimChars s.toList)

/-- Mantissa of a Python float literal: `digits`, `digits.digits`,
`digits.` or `.digits` (at least one digit overall). -/
def parseMantissa (cs : List Char) : Option ℚ :=
  match splitOnChar '.' cs with
  | [ip] =>
    match parseDigits ip with
    | some n => some (n : ℚ)
    | none => none
  | [ip, fp] =>
    if (ip.all Char.isDigit && fp.all Char.isDigit)
        && (!ip.isEmpty || !fp.isEmpty) then
      some ((digitsToNat ip : ℚ) + (digitsToNat fp : ℚ) / qpow10 fp.length)
    else none
  | _ => none

/-- Scale a rational by 10^e for a signed exponent. -/
def applyExp (q : ℚ) (e : ℤ) : ℚ :=
  if 0 ≤ e then q * qpow10 e.toNat else q / qpow10 (-e).toNat

/-- Python `float(str)`: strip whitespace, optional sign, then either
`inf`/`infinity`/`nan` (case-insensitive) or a decimal literal with an
optional exponent part. -/
def parseFloatStr (s : String) : Option PFloat :=
  let t := (trimChars s.toList).map lowerChar
  let (neg, body) :=
    match t with
    | '+' :: cs => (false, cs)
    | '-' :: cs => (true, cs)
    | cs => (false, cs)
  if body = "inf".toList || body = "infinity".toList then
    some (if neg then PFloat.ninf else PFloat.inf)
  else if body = "nan".toList then
    some PFloat.nan
  else
    let q : Option ℚ :=
      match splitOnChar 'e' body with
      | [m] => parseMantissa m
      | [m, ex] =>
        match parseMantissa m, parseSignedDigits ex with
        | some mq, some e => some (applyExp mq e)
        | _, _ => none
      | _ => none
    q.map (fun v => PFloat.finite (if neg then -v else v))

/-- Python `float(v)` on a store value; `none` means the call raises. -/
def pyFloat? (v : Value) : Option PFloat :=
  match v with
  | Value.intV n => some (PFloat.finite (n : ℚ))
  | Value.dbl x => some x
  | Value.str s => parseFloatStr s
  | Value.boolV b => some (PFloat.finite (if b then 1 else 0))
  | Value.null => none

/-- Python `int(v)` on a store value; `none` means the call raises.
`int` of a finite float truncates toward zero; of a non-finite float raises;
of a string accepts only an (optionally signed) integer literal. -/
def pyInt? (v : Value) : Option ℤ :=
  match v with
  | Value.intV n => some n
  | Value.dbl (PFloat.finite q) => some (Int.tdiv q.num (Int.ofNat q.den))
  | Value.dbl _ => none
  | Value.str s => parseIntStr s
  | Value.boolV b => some (if b then 1 else 0)
  | Value.null => none

/-- A document in a `locations` sub-collection (fields may be absent).
Timestamps are integer epoch-milliseconds, as the store interface declares. -/
structure LocDoc where
  latitude : Option Value
  longitude : Option Value
  timestamp : Option ℤ
deriving DecidableEq

/-- A document in a `devices` sub-collection, with its `locations`. -/
structure DeviceDoc where
  id : String
  lastUpdated : Option Value
  locations : List LocDoc
deriving DecidableEq

/-- A document in the `users` collection, with its `devices`.  The `email`
field, when present, holds an arbitrary store value. -/
structure UserDoc where
  id : String
  email : Option Value
  devices : List DeviceDoc
deriving DecidableEq

/-- The Firestore state an invocation sees: the `users` collection in
enumeration order, plus one flag per query step saying whether that store
read raises this invocation (modelling `TransientStoreError`). -/
structure Store where
  users : List UserDoc
  failUserQuery : Bool
  failUserGet : Bool
  failDeviceList : Bool
  failLocQuery : Bool
deriving DecidableEq

/-- A Python exception escaping a core step: a store/query failure, or a
`ValueError`/`TypeError` from a numeric coercion outside any `try`. -/
inductive PyErr where
  | store
  | valueError
deriving DecidableEq

/-- The dict built at the end of `fetch_latest_location`. -/
structure Resolved where
  lat : PFloat
  lng : PFloat
  timestamp_ms : ℤ
  device_id : String
  user_doc : String
deriving DecidableEq

/-- `email_to_safe_id` (main.py lines 68-72): four chained `str.replace`
calls, in source order.  For a single-character pattern, Python `str.replace`
substitutes every occurrence, which for chars is a per-character expansion. -/
def replaceChar (s : String) (c : Char) (r : String) : String :=
  String.join (s.toList.map (fun ch => if ch = c then r else String.singleton ch))

def email_to_safe_id (email : String) : String :=
  replaceChar (replaceChar (replaceChar (replaceChar email '@' "_at_")
    '.' "_dot_") '+' "_plus_") '-' "_dash_"

/-- `db.collection("users").where("email","==",email).limit(1).stream()` +
`next(q, None)` (line 76-77): first user, in enumeration order, whose `email`
field equals the given string exactly (case-sensitive); documents lacking the
field or holding a non-string value never match. -/
def usersFieldQueryFirst (st : Store) (email : String) :
    Except PyErr (Option UserDoc) :=
  if st.failUserQuery then Except.error PyErr.store
  else Except.ok (st.users.find? (fun u => u.email == some (Value.str email)))

/-- `db.collection("users").document(key).get().exists` (lines 82-84):
point lookup of a user document by its store key. -/
def getUserByKey (st : Store) (key : String) : Except PyErr (Option UserDoc) :=
  if st.failUserGet then Except.error PyErr.store
  else Except.ok (st.users.find? (fun u => u.id == key))

/-- `resolve_user_ref_by_email` (main.py lines 74-85): field query first;
only if it yields nothing, the doc-id fallback via `email_to_safe_id`. -/
def resolve_user_ref_by_email (st : Store) (email : String) :
    Except PyErr (Option UserDoc) :=
  match usersFieldQueryFirst st email with
  | Except.error e => Except.error e
  | Except.ok (some u) => Except.ok (some u)
  | Except.ok none =>
    match getUserByKey st (email_to_safe_id email) with
    | Except.error e => Except.error e
    | Except.ok g => Except.ok g

/-- `list(devices_ref.stream())` (line 89): all devices of the user, in
store enumeration order. -/
def listDevices (st : Store) (u : UserDoc) : Except PyErr (List DeviceDoc) :=
  if st.failDeviceList then Except.error PyErr.store
  else Except.ok u.devices

/-- Lines 93-96: `if forced_id:` (Python truthiness, so the empty string is
no override) then a linear scan for an exact id match; no match falls through. -/
def forcedLookup (forced : Option String) (devices : List DeviceDoc) :
    Option DeviceDoc :=
  match forced with
  | none => none
  | some f => if f = "" then none else devices.find? (fun d => d.id == f)

/-- `(d.to_dict() or {}).get("lastUpdated", 0)` (line 99). -/
def devKeyValue (d : DeviceDoc) : Value :=
  match d.lastUpdated with
  | some v => v
  | none => Value.intV 0

/-- The sort key `int((d.to_dict() or {}).get("lastUpdated", 0))`;
`none` when the `int(...)` call raises. -/
def devKey? (d : DeviceDoc) : Option ℤ :=
  pyInt? (devKeyValue d)

/-- The sort key, defaulted (used only to state theorems about devices whose
key computation succeeds). -/
def devKeyD (d : DeviceDoc) : ℤ :=
  (devKey? d).getD 0

/-- Key computation pass of `devices.sort(key=...)` (line 99): CPython
evaluates the key of every element before sorting; the first raising key
aborts the sort with that exception. -/
def keyDevices : List DeviceDoc → Except PyErr (List (ℤ × DeviceDoc))
  | [] => Except.ok []
  | d :: ds =>
    match devKey? d with
    | none => Except.error PyErr.valueError
    | some k =>
      match keyDevices ds with
      | Except.error e => Except.error e
      | Except.ok ps => Except.ok ((k, d) :: ps)

/-- Stable insertion step for a descending sort: a later element is placed
after every earlier element whose key is ≥ its own. -/
def insertDesc {α : Type} (key : α → ℤ) (x : α) : List α → List α
  | [] => [x]
  | y :: ys => if key y ≤ key x then x :: y :: ys else y :: insertDesc key x ys

/-- Stable descending sort, modelling Python `list.sort(key=..., reverse=True)`
(Timsort is stable and `reverse=True` preserves the original order of
equal-key elements; any stable descending sort is extensionally the same). -/
def sortDesc {α : Type} (key : α → ℤ) : List α → List α
  | [] => []
  | x :: xs => insertDesc key x (sortDesc key xs)

/-- `pick_device_ref` (main.py lines 87-100). -/
def pick_device_ref (st : Store) (u : UserDoc) (forced : Option String) :
    Except PyErr (Option DeviceDoc) :=
  match listDevices st u with
  | Except.error e => Except.error e
  | Except.ok [] => Except.ok none
  | Except.ok (d0 :: rest) =>
    match forcedLookup forced (d0 :: rest) with
    | some d => Except.ok (some d)
    | none =>
      match keyDevices (d0 :: rest) with
      | Except.error e => Except.error e
      | Except.ok keyed =>
        match sortDesc (fun p => p.1) keyed with
        | [] => Except.ok none
        | p :: _ => Except.ok (some p.2)

/-- `loc_ref.order_by("timestamp", DESCENDING).limit(1)` (lines 112-113):
documents lacking the ordered-by field are excluded by Firestore; among the
rest, the maximal timestamp wins, ties resolved by enumeration order. -/
def latestByTimestamp (locs : List LocDoc) : Option LocDoc :=
  let keyed := locs.filterMap (fun l =>
    match l.timestamp with
    | some t => some (t, l)
    | none => none)
  match sortDesc (fun p => p.1) keyed with
  | [] => none
  | p :: _ => some p.2

def queryLatestLocation (st : Store) (dev : DeviceDoc) :
    Except PyErr (Option LocDoc) :=
  if st.failLocQuery then Except.error PyErr.store
  else Except.ok (latestByTimestamp dev.locations)

/-- The `try: lat, lng = float(d["latitude"]), float(d["longitude"])` block
(lines 118-121): a missing key or a failed coercion is caught and yields
`None`; `none` here models reaching the `except` branch. -/
def coordsOf (loc : LocDoc) : Option (PFloat × PFloat) :=
  match loc.latitude, loc.longitude with
  | some a, some b =>
    match pyFloat? a, pyFloat? b with
    | some lat, some lng => some (lat, lng)
    | _, _ => none
  | _, _ => none

/-- Lines 111-129 of `fetch_latest_location`, from the chosen device on. -/
def resolveFromDevice (st : Store) (u : UserDoc) (dev : DeviceDoc) :
    Except PyErr (Option Resolved) :=
  match queryLatestLocation st dev with
  | Except.error e => Except.error e
  | Except.ok none => Except.ok none
  | Except.ok (some loc) =>
    match coordsOf loc with
    | none => Except.ok none
    | some (lat, lng) =>
      Except.ok (some (Resolved.mk lat lng (loc.timestamp.getD 0) dev.id u.id))

/-- `fetch_latest_location` (main.py lines 102-129). -/
def fetch_latest_location (st : Store) (email : String)
    (force_device_id : Option String) : Except PyErr (Option Resolved) :=
  match resolve_user_ref_by_email st email with
  | Except.error e => Except.error e
  | Except.ok none => Except.ok none
  | Except.ok (some u) =>
    match pick_device_ref st u force_device_id with
    | Except.error e => Except.error e
    | Except.ok none => Except.ok none
    | Except.ok (some dev) => resolveFromDevice st u dev

/-! ### General lemmas about the embedded operations -/

theorem find?_unique {α : Type} (p : α → Bool) (l : List α) (a : α)
    (ha : a ∈ l) (hpa : p a = true) (huniq : ∀ x ∈ l, p x = true → x = a) :
    l.find? p = some a := by
  induction l with
  | nil => cases ha
  | cons b bs ih =>
    by_cases hb : p b = true
    · have hba : b = a := huniq b (List.mem_cons_self b bs) hb
      subst hba
      exact List.find?_cons_of_pos bs hb
    · have hab : a ≠ b := fun h => hb (h ▸ hpa)
      have ha' : a ∈ bs := by
        rcases List.mem_cons.mp ha with h | h
        · exact absurd h hab
        · exact h
      rw [List.find?_cons_of_neg bs (by simpa using hb)]
      exact ih ha' (fun x hx hpx => huniq x (List.mem_cons_of_mem b hx) hpx)

theorem keyDevices_ok : ∀ (l : List DeviceDoc),
    (∀ d ∈ l, (devKey? d).isSome) →
    keyDevices l = Except.ok (l.map (fun d => (devKeyD d, d)))
  | [], _ => rfl
  | d :: ds, h => by
    have hd : (devKey? d).isSome := h d (List.mem_cons_self d ds)
    obtain ⟨k, hk⟩ := Option.isSome_iff_exists.mp hd
    have hdk : devKeyD d = k := by simp [devKeyD, hk]
    have ih := keyDevices_ok ds (fun x hx => h x (List.mem_cons_of_mem d hx))
    simp [keyDevices, hk, ih, hdk]

theorem keyDevices_error : ∀ (l : List DeviceDoc) (d : DeviceDoc),
    d ∈ l → devKey? d = none → keyDevices l = Except.error PyErr.valueError
  | [], d, hd, _ => absurd hd (List.not_mem_nil d)
  | b :: bs, d, hd, hnone => by
    cases hb : devKey? b with
    | none => simp [keyDevices, hb]
    | some k =>
      have hdb : d ≠ b := fun h => by rw [h, hb] at hnone; cases hnone
      have hd' : d ∈ bs := by
        rcases List.mem_cons.mp hd with h | h
        · exact absurd h hdb
        · exact h
      have ih := keyDevices_error bs d hd' hnone
      simp [keyDevices, hb, ih]

/-- The head of the stable descending sort of a nonempty list is the first
element, in original order, attaining the maximal key. -/
theorem sortDesc_head_first_max {α : Type} (key : α → ℤ) :
    ∀ (l : List α), l ≠ [] →
    ∃ y t l1 l2, sortDesc key l = y :: t ∧ l = l1 ++ y :: l2 ∧
      (∀ x ∈ l, key x ≤ key y) ∧ (∀ x ∈ l1, key x < key y) := by
  intro l
  induction l with
  | nil => intro h; exact absurd rfl h
  | cons a as ih =>
    intro _
    by_cases has : as = []
    · subst has
      refine ⟨a, [], [], [], rfl, rfl, ?_, ?_⟩
      · intro x hx
        rcases List.mem_cons.mp hx with h | h
        · exact le_of_eq (by rw [h])
        · cases h
      · intro x hx; cases hx
    · obtain ⟨y, t, l1, l2, hsort, hsplit, hmax, hfirst⟩ := ih has
      have hstep : sortDesc key (a :: as) = insertDesc key a (y :: t) := by
        simp [sortDesc, hsort]
      by_cases hk : key y ≤ key a
      · refine ⟨a, y :: t, [], as, ?_, rfl, ?_, ?_⟩
        · rw [hstep]; simp [insertDesc, hk]
        · intro x hx
          rcases List.mem_cons.mp hx with h | h
          · exact le_of_eq (by rw [h])
          · exact le_trans (hmax x h) hk
        · intro x hx; cases hx
      · refine ⟨y, insertDesc key a t, a :: l1, l2, ?_, ?_, ?_, ?_⟩
        · rw [hstep]; simp [insertDesc, hk]
        · rw [hsplit]; rfl
        · intro x hx
          rcases List.mem_cons.mp hx with h | h
          · exact le_of_lt (by rw [h]; exact lt_of_not_le hk)
          · exact hmax x h
        · intro x hx
          rcases List.mem_cons.mp hx with h | h
          · rw [h]; exact lt_of_not_le hk
          · exact hfirst x h

theorem map_eq_append_cons {α β : Type} (g : α → β) :
    ∀ (m1 : List β) (l : List α) (p : β) (m2 : List β),
    l.map g = m1 ++ p :: m2 →
    ∃ l1 x l2, l = l1 ++ x :: l2 ∧ g x = p ∧ l1.map g = m1 ∧ l2.map g = m2 := by
  intro m1
  induction m1 with
  | nil =>
    intro l p m2 h
    cases l with
    | nil => cases h
    | cons a as =>
      refine ⟨[], a, as, rfl, ?_, rfl, ?_⟩
      · exact (List.cons.injEq _ _ _ _ ▸ h).1
      · have := (List.cons.injEq _ _ _ _ ▸ h).2
        simpa using this
  | cons b bs ih =>
    intro l p m2 h
    cases l with
    | nil => cases h
    | cons a as =>
      have h1 : g a = b := (List.cons.injEq _ _ _ _ ▸ h).1
      have h2 : as.map g = bs ++ p :: m2 := by
        have := (List.cons.injEq _ _ _ _ ▸ h).2
        simpa using this
      obtain ⟨l1, x, l2, hsplit, hgx, hm1, hm2⟩ := ih as p m2 h2
      exact ⟨a :: l1, x, l2, by rw [hsplit]; rfl, hgx, by simp [hm1, h1], hm2⟩

/-- Sort-path behaviour of `pick_device_ref`: when the device list stream
succeeds, the list is nonempty, no forced id applies and every sort key
computes, the selected device is the first one, in enumeration order,
whose `lastUpdated` key is maximal. -/
theorem pick_device_ref_sorted (st : Store) (u : UserDoc) (forced : Option String)
    (hdl : st.failDeviceList = false) (hne : u.devices ≠ [])
    (hforce : forcedLookup forced u.devices = none)
    (hkeys : ∀ d ∈ u.devices, (devKey? d).isSome) :
    ∃ dsel l1 l2, pick_device_ref st u forced = Except.ok (some dsel) ∧
      u.devices = l1 ++ dsel :: l2 ∧
      (∀ d ∈ u.devices, devKeyD d ≤ devKeyD dsel) ∧
      (∀ d ∈ l1, devKeyD d < devKeyD dsel) := by
  obtain ⟨a, as, heq⟩ : ∃ a as, u.devices = a :: as := by
    cases h : u.devices with
    | nil => exact absurd h hne
    | cons a as => exact ⟨a, as, rfl⟩
  have hkeyed : keyDevices (a :: as) =
      Except.ok ((a :: as).map (fun d => (devKeyD d, d))) := by
    rw [← heq]
    exact keyDevices_ok u.devices hkeys
  have hmapne : (a :: as).map (fun d => (devKeyD d, d)) ≠ [] := by simp
  obtain ⟨y, t, m1, m2, hsort, hsplit, hmax, hfirst⟩ :=
    sortDesc_head_first_max (fun p => p.1) _ hmapne
  obtain ⟨l1, x, l2, hldev, hgx, hm1, hm2⟩ :=
    map_eq_append_cons (fun d => (devKeyD d, d)) m1 (a :: as) y m2 hsplit
  refine ⟨x, l1, l2, ?_, by rw [heq, hldev], ?_, ?_⟩
  · have hforce' : forcedLookup forced (a :: as) = none := by rw [← heq]; exact hforce
    simp only [pick_device_ref, listDevices, hdl, Bool.false_eq_true, if_false, heq,
      hforce', hkeyed, hsort]
    have : y.2 = x := by rw [← hgx]
    rw [this]
  · intro d hd
    have hmem : (devKeyD d, d) ∈ (a :: as).map (fun d => (devKeyD d, d)) :=
      List.mem_map.mpr ⟨d, by rw [← heq]; exact hd, rfl⟩
    have := hmax _ hmem
    rw [← hgx] at this
    exact this
  · intro d hd
    have hmem : (devKeyD d, d) ∈ m1 := by
      rw [← hm1]
      exact List.mem_map.mpr ⟨d, hd, rfl⟩
    have := hfirst _ hmem
    rw [← hgx] at this
    exact this

/-! ### Concrete fixtures used by individual claims -/

def userC2 : UserDoc :=
  UserDoc.mk "uC2" (some (Value.str "c2@x.io"))
    [DeviceDoc.mk "dA" (some (Value.intV 100)) [],
     DeviceDoc.mk "dB" (some (Value.intV 500)) [],
     DeviceDoc.mk "dC" (some (Value.intV 200)) []]

def storeC2 : Store := Store.mk [userC2] false false false false

def userC10 : UserDoc :=
  UserDoc.mk "uC10" (some (Value.str "c10@x.io"))
    [DeviceDoc.mk "first" none [],
     DeviceDoc.mk "second" none [],
     DeviceDoc.mk "third" none []]

def storeC10 : Store := Store.mk [userC10] false false false false

def userC9 : UserDoc :=
  UserDoc.mk "uC9" (some (Value.str "c9@x.io")) []

def storeC9 : Store := Store.mk [userC9] false false false false

/-! ### Claim theorems -/

/-- C8: the fallback identifier derivation replaces `@`, `.`, `+`, `-` with
`_at_`, `_dot_`, `_plus_`, `_dash_` in that substitution order, with no
escaping of collisions; in particular `"a@b.com"` derives to
`"a_at_b_dot_com"`. -/
theorem email_to_safe_id_spec :
    email_to_safe_id "a@b.com" = "a_at_b_dot_com" ∧
    email_to_safe_id "first.last+tag@sub-domain.io" =
      "first_dot_last_plus_tag_at_sub_dash_domain_dot_io" ∧
    email_to_safe_id "a_at_b@c" = "a_at_b_at_c" := by
  refine ⟨?_, ?_, ?_⟩ <;> decide

/-- C2: with no forced device id, selection picks a device of the user whose
`lastUpdated` sort key is numerically maximal among all the user's devices
(an absent `lastUpdated` counting as 0); in particular for devices with
values `[100, 500, 200]`, the device with value 500 is selected. -/
theorem pick_device_recency (st : Store) (u : UserDoc)
    (hdl : st.failDeviceList = false) (hne : u.devices ≠ [])
    (hkeys : ∀ d ∈ u.devices, (devKey? d).isSome) :
    (∃ dsel, pick_device_ref st u none = Except.ok (some dsel) ∧
      dsel ∈ u.devices ∧ ∀ d ∈ u.devices, devKeyD d ≤ devKeyD dsel) ∧
    pick_device_ref storeC2 userC2 none =
      Except.ok (some (DeviceDoc.mk "dB" (some (Value.intV 500)) [])) := by
  constructor
  · obtain ⟨dsel, l1, l2, hpick, hsplit, hmax, _⟩ :=
      pick_device_ref_sorted st u none hdl hne rfl hkeys
    refine ⟨dsel, hpick, ?_, hmax⟩
    rw [hsplit]
    exact List.mem_append_right _ (List.mem_cons_self _ _)
  · decide

theorem pick_device_recency_witness :
    ∃ dsel, pick_device_ref storeC2 userC2 none = Except.ok (some dsel) ∧
      dsel ∈ userC2.devices ∧ ∀ d ∈ userC2.devices, devKeyD d ≤ devKeyD dsel :=
  (pick_device_recency storeC2 userC2 rfl (by decide) (by decide)).1

/-- C10: when no forced device id applies and the sort keys all compute, the
selected device is the first device, in store-enumeration order, attaining
the maximal `lastUpdated` key (the stable sort preserves the relative order
of equal keys), so selection is a deterministic function of the enumerated
device list and the forced id. -/
theorem pick_device_tie_break_first (st : Store) (u : UserDoc)
    (forced : Option String)
    (hdl : st.failDeviceList = false) (hne : u.devices ≠ [])
    (hforce : forcedLookup forced u.devices = none)
    (hkeys : ∀ d ∈ u.devices, (devKey? d).isSome) :
    ∃ dsel l1 l2, pick_device_ref st u forced = Except.ok (some dsel) ∧
      u.devices = l1 ++ dsel :: l2 ∧
      (∀ d ∈ u.devices, devKeyD d ≤ devKeyD dsel) ∧
      (∀ d ∈ l1, devKeyD d < devKeyD dsel) :=
  pick_device_ref_sorted st u forced hdl hne hforce hkeys

theorem pick_device_tie_break_first_witness :
    ∃ dsel l1 l2, pick_device_ref storeC10 userC10 none = Except.ok (some dsel) ∧
      userC10.devices = l1 ++ dsel :: l2 ∧
      (∀ d ∈ userC10.devices, devKeyD d ≤ devKeyD dsel) ∧
      (∀ d ∈ l1, devKeyD d < devKeyD dsel) :=
  pick_device_tie_break_first storeC10 userC10 none rfl (by decide) rfl (by decide)

/-- C9: for a resolved user with zero devices, both device selection and the
whole resolution yield NotFound (`none`), not an error, whatever the forced
device id is. -/
theorem zero_devices_notfound (st : Store) (e : String) (f : Option String)
    (u : UserDoc)
    (hr : resolve_user_ref_by_email st e = Except.ok (some u))
    (hdl : st.failDeviceList = false)
    (hdev : u.devices = []) :
    pick_device_ref st u f = Except.ok none ∧
    fetch_latest_location st e f = Except.ok none := by
  have hpick : pick_device_ref st u f = Except.ok none := by
    simp [pick_device_ref, listDevices, hdl, hdev]
  exact ⟨hpick, by simp [fetch_latest_location, hr, hpick]⟩

theorem zero_devices_notfound_witness :
    pick_device_ref storeC9 userC9 (some "devX") = Except.ok none ∧
    fetch_latest_location storeC9 "c9@x.io" (some "devX") = Except.ok none :=
  zero_devices_notfound storeC9 "c9@x.io" (some "devX") userC9 (by decide) rfl rfl

def devC3old : DeviceDoc :=
  DeviceDoc.mk "dOld" (some (Value.intV 100))
    [LocDoc.mk (some (Value.dbl (PFloat.finite 7)))
      (some (Value.dbl (PFloat.finite 8))) (some 1000)]

def devC3new : DeviceDoc :=
  DeviceDoc.mk "dNew" (some (Value.intV 99999))
    [LocDoc.mk (some (Value.dbl (PFloat.finite 3)))
      (some (Value.dbl (PFloat.finite 4))) (some 2000)]

def userC3 : UserDoc :=
  UserDoc.mk "uC3" (some (Value.str "c3@x.io")) [devC3new, devC3old]

def storeC3 : Store := Store.mk [userC3] false false false false

/-- C3: a forced device id matching an existing device under the user is
selected unconditionally — even when another device has a strictly larger
`lastUpdated` — and the resolved location is computed from that device's
latest sample. -/
theorem forced_device_selected (st : Store) (e f : String) (u : UserDoc)
    (d : DeviceDoc)
    (hr : resolve_user_ref_by_email st e = Except.ok (some u))
    (hdl : st.failDeviceList = false)
    (hf : f ≠ "")
    (hmem : d ∈ u.devices) (hid : d.id = f)
    (huniq : ∀ x ∈ u.devices, x.id = f → x = d) :
    pick_device_ref st u (some f) = Except.ok (some d) ∧
    fetch_latest_location st e (some f) = resolveFromDevice st u d := by
  obtain ⟨a, as, heq⟩ : ∃ a as, u.devices = a :: as := by
    cases h : u.devices with
    | nil => rw [h] at hmem; cases hmem
    | cons a as => exact ⟨a, as, rfl⟩
  have hfind : u.devices.find? (fun x => x.id == f) = some d :=
    find?_unique _ _ _ hmem (by simp [hid])
      (fun x hx hpx => huniq x hx (by simpa using hpx))
  have hfl : forcedLookup (some f) (a :: as) = some d := by
    rw [← heq]
    simp [forcedLookup, hf, hfind]
  have hpick : pick_device_ref st u (some f) = Except.ok (some d) := by
    simp only [pick_device_ref, listDevices, hdl, Bool.false_eq_true, if_false,
      heq, hfl]
  exact ⟨hpick, by simp [fetch_latest_location, hr, hpick]⟩

theorem forced_device_selected_witness :
    pick_device_ref storeC3 userC3 (some "dOld") = Except.ok (some devC3old) ∧
    fetch_latest_location storeC3 "c3@x.io" (some "dOld") =
      resolveFromDevice storeC3 userC3 devC3old :=
  forced_device_selected storeC3 "c3@x.io" "dOld" userC3 devC3old (by decide)
    rfl (by decide) (by decide) rfl (by decide)

def locC4bad : LocDoc :=
  LocDoc.mk (some (Value.str "not-a-number"))
    (some (Value.dbl (PFloat.finite 2))) (some 100)

def locC4older : LocDoc :=
  LocDoc.mk (some (Value.dbl (PFloat.finite 1)))
    (some (Value.dbl (PFloat.finite 2))) (some 50)

def devC4 : DeviceDoc := DeviceDoc.mk "dC4" none [locC4bad, locC4older]

def userC4 : UserDoc := UserDoc.mk "uC4" (some (Value.str "c4@x.io")) [devC4]

def storeC4 : Store := Store.mk [userC4] false false false false

/-- C4: if the selected device's latest sample (maximal `timestamp`) carries a
latitude or longitude whose numeric coercion fails, the whole resolution
yields NotFound (`none`), with no fallback to any older sample. -/
theorem bad_coordinate_notfound (st : Store) (e : String) (f : Option String)
    (u : UserDoc) (dev : DeviceDoc) (loc : LocDoc)
    (hr : resolve_user_ref_by_email st e = Except.ok (some u))
    (hp : pick_device_ref st u f = Except.ok (some dev))
    (hq : st.failLocQuery = false)
    (hl : latestByTimestamp dev.locations = some loc)
    (hbad : (∃ v, loc.latitude = some v ∧ pyFloat? v = none) ∨
            (∃ v, loc.longitude = some v ∧ pyFloat? v = none)) :
    fetch_latest_location st e f = Except.ok none := by
  have hco : coordsOf loc = none := by
    rcases hbad with ⟨v, hv, hnone⟩ | ⟨v, hv, hnone⟩
    · cases hlng : loc.longitude <;> simp [coordsOf, hv, hnone, hlng]
    · cases hlat : loc.latitude with
      | none => simp [coordsOf, hlat]
      | some a =>
        cases hpa : pyFloat? a <;> simp [coordsOf, hlat, hv, hnone, hpa]
  have hres : resolveFromDevice st u dev = Except.ok none := by
    simp [resolveFromDevice, queryLatestLocation, hq, hl, hco]
  simp [fetch_latest_location, hr, hp, hres]

theorem bad_coordinate_notfound_witness :
    fetch_latest_location storeC4 "c4@x.io" none = Except.ok none :=
  bad_coordinate_notfound storeC4 "c4@x.io" none userC4 devC4 locC4bad
    (by decide) (by decide) rfl (by decide)
    (Or.inl ⟨Value.str "not-a-number", rfl, by decide⟩)

def userC1keyed : UserDoc :=
  UserDoc.mk (email_to_safe_id "c1@x.io") (some (Value.str "other@y.io")) []

def userC1field : UserDoc :=
  UserDoc.mk "uC1" (some (Value.str "c1@x.io")) []

def storeC1 : Store := Store.mk [userC1keyed, userC1field] false true false false

/-- C1: identity resolution tries its two lookups in strict priority order:
an exact, case-sensitive `email` field match is returned without consulting
the fallback derivation; failing that, a user record keyed by the derived
fallback id is returned; failing both, resolution yields NotFound (`none`). -/
theorem resolve_priority (st : Store) (e : String)
    (hq : st.failUserQuery = false) :
    (∀ u ∈ st.users, u.email = some (Value.str e) →
      (∀ v ∈ st.users, v.email = some (Value.str e) → v = u) →
      resolve_user_ref_by_email st e = Except.ok (some u)) ∧
    (st.failUserGet = false →
      (∀ u ∈ st.users, u.email ≠ some (Value.str e)) →
      ∀ u ∈ st.users, u.id = email_to_safe_id e →
      (∀ v ∈ st.users, v.id = email_to_safe_id e → v = u) →
      resolve_user_ref_by_email st e = Except.ok (some u)) ∧
    (st.failUserGet = false →
      (∀ u ∈ st.users, u.email ≠ some (Value.str e) ∧ u.id ≠ email_to_safe_id e) →
      resolve_user_ref_by_email st e = Except.ok none) := by
  refine ⟨?_, ?_, ?_⟩
  · intro u hu hemail huniq
    have hfind : st.users.find? (fun v => v.email == some (Value.str e)) = some u :=
      find?_unique _ _ _ hu (by simp [hemail])
        (fun x hx hpx => huniq x hx (by simpa using hpx))
    simp [resolve_user_ref_by_email, usersFieldQueryFirst, hq, hfind]
  · intro hg hnone u hu hid huniq
    have hfind1 : st.users.find? (fun v => v.email == some (Value.str e)) = none :=
      List.find?_eq_none.mpr (fun x hx => by simpa using hnone x hx)
    have hfind2 : st.users.find? (fun v => v.id == email_to_safe_id e) = some u :=
      find?_unique _ _ _ hu (by simp [hid])
        (fun x hx hpx => huniq x hx (by simpa using hpx))
    simp [resolve_user_ref_by_email, usersFieldQueryFirst, hq, hfind1,
      getUserByKey, hg, hfind2]
  · intro hg hnone
    have hfind1 : st.users.find? (fun v => v.email == some (Value.str e)) = none :=
      List.find?_eq_none.mpr (fun x hx => by simpa using (hnone x hx).1)
    have hfind2 : st.users.find? (fun v => v.id == email_to_safe_id e) = none :=
      List.find?_eq_none.mpr (fun x hx => by simpa using (hnone x hx).2)
    simp [resolve_user_ref_by_email, usersFieldQueryFirst, hq, hfind1,
      getUserByKey, hg, hfind2]

theorem resolve_priority_witness :
    resolve_user_ref_by_email storeC1 "c1@x.io" = Except.ok (some userC1field) :=
  (resolve_priority storeC1 "c1@x.io" rfl).1 userC1field (by decide) rfl (by decide)

def storeC5 : Store := Store.mk [] true false false false

def storeC5w : Store :=
  Store.mk [UserDoc.mk "uC5" (some (Value.str "c5@x.io")) []] true false false false

/-- C5 counterexample: a failure of the user field query is not converted to
NotFound — `fetch_latest_location` surfaces the raised store error, so the
core does abort instead of degrading to "no result". -/
theorem store_error_reaches_caller :
    fetch_latest_location storeC5 "a@b.com" none = Except.error PyErr.store ∧
    (Except.error PyErr.store : Except PyErr (Option Resolved)) ≠
      Except.ok none := by
  exact ⟨by decide, by decide⟩

/-- C5 amended: a failure while querying the external store (user field query,
fallback key lookup, device enumeration, or latest-sample query) propagates
out of the core as an exception; it is not caught nor converted to NotFound. -/
theorem store_failure_propagates :
    (∀ st e f, st.failUserQuery = true →
      fetch_latest_location st e f = Except.error PyErr.store) ∧
    (∀ st e, st.failUserQuery = false →
      (∀ u ∈ st.users, u.email ≠ some (Value.str e)) →
      st.failUserGet = true → ∀ f,
      fetch_latest_location st e f = Except.error PyErr.store) ∧
    (∀ st e f u, resolve_user_ref_by_email st e = Except.ok (some u) →
      st.failDeviceList = true →
      fetch_latest_location st e f = Except.error PyErr.store) ∧
    (∀ st e f u dev, resolve_user_ref_by_email st e = Except.ok (some u) →
      pick_device_ref st u f = Except.ok (some dev) →
      st.failLocQuery = true →
      fetch_latest_location st e f = Except.error PyErr.store) := by
  refine ⟨?_, ?_, ?_, ?_⟩
  · intro st e f h
    have hres : resolve_user_ref_by_email st e = Except.error PyErr.store := by
      simp [resolve_user_ref_by_email, usersFieldQueryFirst, h]
    simp [fetch_latest_location, hres]
  · intro st e hq hnone hg f
    have hfind1 : st.users.find? (fun v => v.email == some (Value.str e)) = none :=
      List.find?_eq_none.mpr (fun x hx => by simpa using hnone x hx)
    have hres : resolve_user_ref_by_email st e = Except.error PyErr.store := by
      simp [resolve_user_ref_by_email, usersFieldQueryFirst, hq, hfind1,
        getUserByKey, hg]
    simp [fetch_latest_location, hres]
  · intro st e f u hr hd
    have hpick : pick_device_ref st u f = Except.error PyErr.store := by
      simp [pick_device_ref, listDevices, hd]
    simp [fetch_latest_location, hr, hpick]
  · intro st e f u dev hr hp hq
    have hres : resolveFromDevice st u dev = Except.error PyErr.store := by
      simp [resolveFromDevice, queryLatestLocation, hq]
    simp [fetch_latest_location, hr, hp, hres]

theorem store_failure_propagates_witness :
    fetch_latest_location storeC5w "c5@x.io" none = Except.error PyErr.store :=
  store_failure_propagates.1 storeC5w "c5@x.io" none rfl

def locC6 : LocDoc :=
  LocDoc.mk (some (Value.dbl PFloat.inf))
    (some (Value.dbl (PFloat.finite 2))) (some 42)

def devC6 : DeviceDoc := DeviceDoc.mk "dC6" none [locC6]

def userC6 : UserDoc := UserDoc.mk "uC6" (some (Value.str "c6@x.io")) [devC6]

def storeC6 : Store := Store.mk [userC6] false false false false

/-- C6 counterexample: a latest sample whose latitude coerces to the
non-finite value infinity does not make the resolution fail — a full result
carrying the non-finite coordinate is produced. -/
theorem nonfinite_coordinate_accepted_cex :
    fetch_latest_location storeC6 "c6@x.io" none =
      Except.ok (some (Resolved.mk PFloat.inf (PFloat.finite 2) 42 "dC6" "uC6")) := by
  decide

/-- C6 amended: a sample is valid exactly when both coordinates coerce via
`float(...)` without raising; values that coerce to non-finite floats
(infinity, NaN) are accepted, and the resolution returns a result carrying
them rather than NotFound. -/
theorem coercible_coordinates_found (st : Store) (e : String) (f : Option String)
    (u : UserDoc) (dev : DeviceDoc) (loc : LocDoc) (vlat vlng : Value)
    (lat lng : PFloat)
    (hr : resolve_user_ref_by_email st e = Except.ok (some u))
    (hp : pick_device_ref st u f = Except.ok (some dev))
    (hq : st.failLocQuery = false)
    (hl : latestByTimestamp dev.locations = some loc)
    (hlat : loc.latitude = some vlat) (hlng : loc.longitude = some vlng)
    (hclat : pyFloat? vlat = some lat) (hclng : pyFloat? vlng = some lng) :
    fetch_latest_location st e f =
      Except.ok (some (Resolved.mk lat lng (loc.timestamp.getD 0) dev.id u.id)) := by
  have hco : coordsOf loc = some (lat, lng) := by
    simp [coordsOf, hlat, hlng, hclat, hclng]
  have hres : resolveFromDevice st u dev =
      Except.ok (some (Resolved.mk lat lng (loc.timestamp.getD 0) dev.id u.id)) := by
    simp [resolveFromDevice, queryLatestLocation, hq, hl, hco]
  simp [fetch_latest_location, hr, hp, hres]

def locC6w : LocDoc :=
  LocDoc.mk (some (Value.dbl PFloat.nan))
    (some (Value.dbl PFloat.ninf)) (some 7)

def devC6w : DeviceDoc := DeviceDoc.mk "dC6w" none [locC6w]

def userC6w : UserDoc := UserDoc.mk "uC6w" (some (Value.str "c6w@x.io")) [devC6w]

def storeC6w : Store := Store.mk [userC6w] false false false false

theorem coercible_coordinates_found_witness :
    fetch_latest_location storeC6w "c6w@x.io" none =
      Except.ok (some (Resolved.mk PFloat.nan PFloat.ninf 7 "dC6w" "uC6w")) :=
  coercible_coordinates_found storeC6w "c6w@x.io" none userC6w devC6w locC6w
    (Value.dbl PFloat.nan) (Value.dbl PFloat.ninf) PFloat.nan PFloat.ninf
    (by decide) (by decide) rfl (by decide) rfl rfl rfl rfl

def devC7bad : DeviceDoc := DeviceDoc.mk "dBad" (some (Value.str "soon")) []

def devC7ok : DeviceDoc := DeviceDoc.mk "dOk" (some (Value.intV 100)) []

def userC7 : UserDoc :=
  UserDoc.mk "uC7" (some (Value.str "c7@x.io")) [devC7ok, devC7bad]

def storeC7 : Store := Store.mk [userC7] false false false false

/-- C7 counterexample: a device whose `lastUpdated` is the non-numeric string
"soon" makes `int(...)` in the sort key raise, so selection aborts with an
error instead of treating the value as 0 and completing. -/
theorem malformed_lastUpdated_raises_cex :
    pick_device_ref storeC7 userC7 none = Except.error PyErr.valueError := by
  decide

/-- C7 amended: an absent `lastUpdated` is keyed as 0 and selection completes
normally; but a malformed `lastUpdated` (not coercible by `int(...)`) raises,
and recency-based selection fails with an error instead of completing. -/
theorem lastUpdated_default_behavior :
    (∀ d : DeviceDoc, d.lastUpdated = none → devKey? d = some 0) ∧
    (∀ st u, st.failDeviceList = false → u.devices ≠ [] →
      (∀ d ∈ u.devices, (devKey? d).isSome) →
      ∃ dsel, pick_device_ref st u none = Except.ok (some dsel) ∧
        dsel ∈ u.devices) ∧
    (∀ st u d, st.failDeviceList = false → d ∈ u.devices → devKey? d = none →
      pick_device_ref st u none = Except.error PyErr.valueError) := by
  refine ⟨?_, ?_, ?_⟩
  · intro d h
    simp [devKey?, devKeyValue, h, pyInt?]
  · intro st u hdl hne hkeys
    obtain ⟨dsel, l1, l2, hpick, hsplit, _, _⟩ :=
      pick_device_ref_sorted st u none hdl hne rfl hkeys
    refine ⟨dsel, hpick, ?_⟩
    rw [hsplit]
    exact List.mem_append_right _ (List.mem_cons_self _ _)
  · intro st u d hdl hmem hnone
    obtain ⟨a, as, heq⟩ : ∃ a as, u.devices = a :: as := by
      cases h : u.devices with
      | nil => rw [h] at hmem; cases hmem
      | cons a as => exact ⟨a, as, rfl⟩
    have hkd : keyDevices (a :: as) = Except.error PyErr.valueError := by
      rw [← heq]
      exact keyDevices_error u.devices d hmem hnone
    simp only [pick_device_ref, listDevices, hdl, Bool.false_eq_true, if_false,
      heq, forcedLookup, hkd]

def userC7w : UserDoc :=
  UserDoc.mk "uC7w" (some (Value.str "c7w@x.io")) [DeviceDoc.mk "dOnly" none []]

def storeC7w : Store := Store.mk [userC7w] false false false false

theorem lastUpdated_default_behavior_witness :
    ∃ dsel, pick_device_ref storeC7w userC7w none = Except.ok (some dsel) ∧
      dsel ∈ userC7w.devices :=
  lastUpdated_default_behavior.2.1 storeC7w userC7w rfl (by decide) (by decide)

end TomLocation
